import Mathlib

/-!
Verification development for the `fast` CLI (a Bun/TypeScript command-line
tool).  The source program is shallowly embedded here: JavaScript strings are
modelled as `List Char`, the JS `Map` used for the command registry as an
association list with insert-or-overwrite semantics, child-process outcomes
as explicit oracle values, and console output as lists of abstract events.
Every definition mirrors a function of the source file (names are kept);
definitions prefixed with `spec` restate the natural-language specification
for refinement comparisons.
-/

namespace FastCLI

/-! ## JavaScript string primitives (strings as `List Char`) -/

/-- The whitespace characters relevant to JS `String.prototype.trim` for the
inputs this program handles (space, tab, newline, carriage return, vertical
tab, form feed). -/
def isJsWs (c : Char) : Bool :=
  c = ' ' || c = '\t' || c = '\n' || c = '\r' || c = Char.ofNat 11 || c = Char.ofNat 12

/-- JS `trimEnd`: drop trailing whitespace. -/
def wsDropEnd (l : List Char) : List Char :=
  (l.reverse.dropWhile isJsWs).reverse

/-- JS `trim`: drop leading and trailing whitespace. -/
def jsTrim (l : List Char) : List Char :=
  wsDropEnd (l.dropWhile isJsWs)

/-- JS `"…".replace(/[\t ]+$/, "")` as used on commit-message lines. -/
def trimLineEnd (l : List Char) : List Char :=
  (l.reverse.dropWhile (fun c => c = '\t' || c = ' ')).reverse

/-- Splitting on the regex `/\r?\n/` (JS `String.prototype.split`). -/
def goSplit : List Char → List Char → List (List Char)
  | [], acc => [acc.reverse]
  | '\r' :: '\n' :: rest, acc => acc.reverse :: goSplit rest []
  | '\n' :: rest, acc => acc.reverse :: goSplit rest []
  | c :: rest, acc => goSplit rest (c :: acc)

/-- JS `message.split(/\r?\n/)`. -/
def splitLines (l : List Char) : List (List Char) :=
  goSplit l []

/-- JS `Array.prototype.join("\n")`. -/
def joinWithNewline : List (List Char) → List Char
  | [] => []
  | [x] => x
  | x :: y :: xs => x ++ '\n' :: joinWithNewline (y :: xs)

/-! ### Basic facts about trimming -/

theorem mem_dropWhile_of_not_ws {c : Char} {p : Char → Bool} :
    ∀ {l : List Char}, c ∈ l → p c = false → c ∈ l.dropWhile p
  | [], h, _ => absurd h (List.not_mem_nil c)
  | x :: xs, h, hc => by
    by_cases hx : p x
    · have : c ∈ xs := by
        rcases List.mem_cons.mp h with rfl | h'
        · rw [hx] at hc; cases hc
        · exact h'
      simpa [List.dropWhile_cons, hx] using mem_dropWhile_of_not_ws this hc
    · simpa [List.dropWhile_cons, hx] using h

theorem mem_wsDropEnd_of_not_ws {c : Char} {l : List Char}
    (h : c ∈ l) (hc : isJsWs c = false) : c ∈ wsDropEnd l := by
  unfold wsDropEnd
  rw [List.mem_reverse]
  exact mem_dropWhile_of_not_ws (List.mem_reverse.mpr h) hc

theorem jsTrim_eq_nil_iff {l : List Char} :
    jsTrim l = [] ↔ ∀ c ∈ l, isJsWs c = true := by
  constructor
  · intro h c hc
    by_contra hws
    have hws' : isJsWs c = false := by
      cases hq : isJsWs c
      · rfl
      · exact absurd hq hws
    have h1 : c ∈ l.dropWhile isJsWs := mem_dropWhile_of_not_ws hc hws'
    have h2 : c ∈ jsTrim l := mem_wsDropEnd_of_not_ws h1 hws'
    rw [h] at h2
    exact List.not_mem_nil c h2
  · intro h
    have h1 : l.dropWhile isJsWs = [] := List.dropWhile_eq_nil_iff.mpr h
    simp [jsTrim, h1, wsDropEnd]

theorem jsTrim_jsTrim_ne_nil {l : List Char} (h : jsTrim l ≠ []) :
    jsTrim (jsTrim l) ≠ [] := by
  intro hcon
  apply h
  rw [jsTrim_eq_nil_iff]
  intro c hc
  by_contra hws
  have hws' : isJsWs c = false := by
    cases hq : isJsWs c
    · rfl
    · exact absurd hq hws
  have h1 : c ∈ l.dropWhile isJsWs := mem_dropWhile_of_not_ws hc hws'
  have h2 : c ∈ jsTrim l := mem_wsDropEnd_of_not_ws h1 hws'
  have := jsTrim_eq_nil_iff.mp hcon c h2
  rw [this] at hws'
  cases hws'

/-! ## Commit-message generation (source: `truncateDiffForCommit`,
`generateCommitMessage`, `trimMatchingQuotes`,
`splitCommitMessageParagraphs`, `prepareCommit`) -/

/-- Source constant `MAX_COMMIT_DIFF_CHARS = 12_000`. -/
def MAX_COMMIT_DIFF_CHARS : Nat := 12000

/-- The marker appended by `truncateDiffForCommit`
(`\n\n[Diff truncated to the first 12000 characters]`). -/
def truncationMarker : List Char :=
  "\n\n[Diff truncated to the first 12000 characters]".toList

/-- The notice `generateCommitMessage` appends to the user prompt when the
diff was truncated. -/
def truncationNotice : List Char :=
  "\n\n[Diff truncated to fit within prompt]".toList

/-- Source `truncateDiffForCommit`: a diff within the budget is returned
unchanged with `truncated = false`; otherwise its first 12000 characters with
the marker appended and `truncated = true`. -/
def truncateDiffForCommit (diff : List Char) : List Char × Bool :=
  if diff.length ≤ MAX_COMMIT_DIFF_CHARS then (diff, false)
  else (diff.take MAX_COMMIT_DIFF_CHARS ++ truncationMarker, true)

/-- The user prompt built inside the source `generateCommitMessage` (base
text, the diff, the truncation notice when flagged, and the trimmed
`git status --short` output when non-empty). -/
def commitUserPrompt (diff status : List Char) (truncated : Bool) : List Char :=
  "Write a git commit message for the staged changes.\n\nGit diff:\n".toList
    ++ diff
    ++ (if truncated then truncationNotice else [])
    ++ (if jsTrim status = [] then []
        else "\n\nGit status --short:\n".toList ++ jsTrim status)

/-- The double-quote character. -/
def quoteDouble : Char := Char.ofNat 34

/-- The single-quote character. -/
def quoteSingle : Char := Char.ofNat 39

/-- Source `trimMatchingQuotes`: strip exactly one layer of identical
wrapping quote characters when the input has length at least two. -/
def trimMatchingQuotes (input : List Char) : List Char :=
  if 2 ≤ input.length then
    if (input.head? = some quoteDouble ∧ input.getLast? = some quoteDouble)
        ∨ (input.head? = some quoteSingle ∧ input.getLast? = some quoteSingle)
    then (input.drop 1).dropLast
    else input
  else input

/-- The paragraph-accumulation loop of `splitCommitMessageParagraphs`
(`current` is kept reversed). -/
def goParagraphs : List (List Char) → List (List Char) → List (List Char)
  | [], current =>
    if current = [] then [] else [wsDropEnd (joinWithNewline current.reverse)]
  | line :: rest, current =>
    if jsTrim line = [] then
      if current = [] then goParagraphs rest []
      else wsDropEnd (joinWithNewline current.reverse) :: goParagraphs rest []
    else goParagraphs rest (trimLineEnd line :: current)

/-- Source `splitCommitMessageParagraphs`: split into lines on `\r?\n`, strip
trailing tabs/spaces per line, join consecutive non-blank lines with `\n` and
trim the end of each finished paragraph. -/
def splitCommitMessageParagraphs (message : List Char) : List (List Char) :=
  goParagraphs (splitLines message) []

/-- The pure commit-message pipeline of the source `prepareCommit` applied to
the model's response text: `generateCommitMessage` trims the streamed text and
fails when it is empty; `prepareCommit` then trims again, strips one layer of
matching quotes, fails when empty, splits into paragraphs, and fails when no
paragraph remains.  On success it returns the quoted-stripped message together
with its paragraphs (the `CommitPayload`). -/
def prepareCommitFormat (modelText : List Char) :
    Except String (List Char × List (List Char)) :=
  let message := jsTrim modelText
  if message = [] then .error "Model returned an empty commit message"
  else
    let trimmedMessage := trimMatchingQuotes (jsTrim message)
    if trimmedMessage = [] then .error "Commit message is empty"
    else
      let paragraphs := splitCommitMessageParagraphs trimmedMessage
      if paragraphs = [] then .error "Commit message is empty after formatting"
      else .ok (trimmedMessage, paragraphs)

/-! ## Claim C4 -/

/-- C4: a diff of at most 12000 characters is returned unchanged with the
truncated flag false; a longer diff is cut to its first 12000 characters with
the truncation marker appended and the flag true; and a true flag makes the
truncation notice appear inside the user prompt sent to the model. -/
theorem c4_diff_truncation (diff status : List Char) :
    (diff.length ≤ MAX_COMMIT_DIFF_CHARS → truncateDiffForCommit diff = (diff, false))
    ∧ (MAX_COMMIT_DIFF_CHARS < diff.length →
        truncateDiffForCommit diff
          = (diff.take MAX_COMMIT_DIFF_CHARS ++ truncationMarker, true))
    ∧ ((truncateDiffForCommit diff).2 = true →
        ∃ a b, commitUserPrompt (truncateDiffForCommit diff).1 status
            (truncateDiffForCommit diff).2 = a ++ truncationNotice ++ b) := by
  refine ⟨fun h => ?_, fun h => ?_, fun h => ?_⟩
  · simp [truncateDiffForCommit, h]
  · simp [truncateDiffForCommit, Nat.not_le.mpr h]
  · refine ⟨"Write a git commit message for the staged changes.\n\nGit diff:\n".toList
      ++ (truncateDiffForCommit diff).1,
      (if jsTrim status = [] then []
        else "\n\nGit status --short:\n".toList ++ jsTrim status), ?_⟩
    simp [commitUserPrompt, h, List.append_assoc]

/-- A concrete diff one character over the budget. -/
def oversizedDiff : List Char := List.replicate 12001 'a'

/-- Witness for C4 at concrete inputs: the empty diff is untouched, and a
12001-character diff is truncated with the marker appended. -/
theorem c4_diff_truncation_witness :
    truncateDiffForCommit [] = ([], false)
    ∧ truncateDiffForCommit oversizedDiff
        = (oversizedDiff.take MAX_COMMIT_DIFF_CHARS ++ truncationMarker, true) := by
  constructor
  · exact (c4_diff_truncation [] []).1 (by simp [MAX_COMMIT_DIFF_CHARS])
  · have hlen : oversizedDiff.length = 12001 := by
      unfold oversizedDiff
      exact List.length_replicate 12001 'a'
    exact (c4_diff_truncation oversizedDiff []).2.1
      (by rw [hlen]; norm_num [MAX_COMMIT_DIFF_CHARS])

/-! ## Claim C5 -/

/-- C5: commit-message formatting trims the model response, strips one layer
of matching wrapping quotes, and splits on blank lines: an all-whitespace
response is a hard failure before any commit is attempted, the response
`  "Fix bug"  ` yields exactly the paragraph list `["Fix bug"]`, and a
response of two blank-line-separated blocks yields two paragraphs. -/
theorem c5_commit_message_formatting :
    (∀ r : List Char, (∀ c ∈ r, isJsWs c = true) →
        prepareCommitFormat r = .error "Model returned an empty commit message")
    ∧ prepareCommitFormat ("  \"Fix bug\"  ".toList)
        = .ok ("Fix bug".toList, ["Fix bug".toList])
    ∧ prepareCommitFormat ("Add feature\n\n- first change\n- second change".toList)
        = .ok ("Add feature\n\n- first change\n- second change".toList,
               ["Add feature".toList, "- first change\n- second change".toList]) := by
  refine ⟨fun r h => ?_, by rfl, by rfl⟩
  have hnil : jsTrim r = [] := jsTrim_eq_nil_iff.mpr h
  simp [prepareCommitFormat, hnil]

/-- Witness for C5: the all-whitespace response `"   "` fails before any
commit is attempted. -/
theorem c5_commit_message_formatting_witness :
    prepareCommitFormat ("   ".toList)
      = .error "Model returned an empty commit message" :=
  c5_commit_message_formatting.1 ("   ".toList) (by decide)

/-! ## Configuration tasks (source: `OneFTaskConfig`, `runConfiguredTask`,
`executeTaskCommand`)

The `OneFTaskConfig` record is declared in the repository's `config.ts`
(not under `src/`); its shape `{desc?, silent?, cmds?}` is taken from the
spec's data model and from how this file reads it.  A child process is
modelled by an oracle `world : Nat → Option Int` giving the `close` code of
the i-th spawned command (`none` models termination by a signal, where the
source substitutes `code ?? -1`). -/

structure OneFTaskConfig where
  desc : Option String := none
  silent : Option Bool := none
  cmds : Option (List String) := none
deriving DecidableEq

/-- The error message built in `executeTaskCommand` when a command's process
closes with a non-zero (or null) code. -/
def taskCmdFailureMsg (name : String) (code : Option Int) : String :=
  "Task '" ++ name ++ "' command exited with code " ++ toString (code.getD (-1))

/-- Source `executeTaskCommand`: resolve on close code 0, otherwise reject
with an error naming the task (`command` itself only reaches the shell). -/
def executeTaskCommand (world : Nat → Option Int) (i : Nat)
    (_command : String) (name : String) : Except String Unit :=
  if world i = some 0 then .ok () else .error (taskCmdFailureMsg name (world i))

/-- The sequential `for` loop of `runConfiguredTask`: run each command,
awaiting each, stopping at the first rejection.  Returns the list of commands
actually executed together with the final outcome. -/
def runTaskCmds (world : Nat → Option Int) (name : String) :
    List String → Nat → List String × Except String Unit
  | [], _ => ([], .ok ())
  | c :: rest, i =>
    match executeTaskCommand world i c name with
    | .ok _ =>
      let r := runTaskCmds world name rest (i + 1)
      (c :: r.1, r.2)
    | .error e => ([c], .error e)

/-- Source `runConfiguredTask` (with the task's config already resolved, as
when invoked through the handler registered by `registerConfigTasks`): an
empty or absent `cmds` list fails naming the task; otherwise the commands run
sequentially. -/
def runConfiguredTask (world : Nat → Option Int) (name : String)
    (config : OneFTaskConfig) : List String × Except String Unit :=
  let commands := config.cmds.getD []
  if commands = [] then
    ([], .error ("Task '" ++ name ++ "' has no commands to run"))
  else runTaskCmds world name commands 0

theorem runTaskCmds_all_ok (world : Nat → Option Int) (name : String) :
    ∀ (cmds : List String) (k : Nat),
      (∀ i, i < cmds.length → world (k + i) = some 0) →
      runTaskCmds world name cmds k = (cmds, .ok ())
  | [], _, _ => rfl
  | c :: rest, k, h => by
    have h0 : world k = some 0 := by simpa using h 0 (by simp)
    have ih := runTaskCmds_all_ok world name rest (k + 1) (fun i hi => by
      have := h (i + 1) (by simpa using Nat.succ_lt_succ hi)
      simpa [Nat.add_comm, Nat.add_assoc, Nat.add_left_comm] using this)
    simp [runTaskCmds, executeTaskCommand, h0, ih]

theorem runTaskCmds_first_fail (world : Nat → Option Int) (name : String) :
    ∀ (cmds : List String) (k j : Nat), j < cmds.length →
      (∀ i, i < j → world (k + i) = some 0) → world (k + j) ≠ some 0 →
      runTaskCmds world name cmds k
        = (cmds.take (j + 1), .error (taskCmdFailureMsg name (world (k + j))))
  | [], _, j, hj, _, _ => absurd hj (by simp)
  | c :: rest, k, 0, _, _, hfail => by
    simp only [Nat.add_zero] at hfail
    simp [runTaskCmds, executeTaskCommand, hfail]
  | c :: rest, k, j + 1, hj, hprev, hfail => by
    have h0 : world k = some 0 := by simpa using hprev 0 (Nat.succ_pos j)
    have ih := runTaskCmds_first_fail world name rest (k + 1) j
      (by simpa using Nat.lt_of_succ_lt_succ hj)
      (fun i hi => by
        have := hprev (i + 1) (Nat.succ_lt_succ hi)
        simpa [Nat.add_comm, Nat.add_assoc, Nat.add_left_comm] using this)
      (by
        have : k + 1 + j = k + (j + 1) := by omega
        rw [this]; exact hfail)
    have hidx : k + 1 + j = k + (j + 1) := by omega
    simp [runTaskCmds, executeTaskCommand, h0, ih, hidx]

/-! ## Claim C3 -/

/-- C3: a configured task with a non-empty `cmds` list runs its commands in
declaration order and stops at the first one whose process closes with a
non-zero code or is killed by a signal, surfacing an error that names the
task; commands after the first failing one are never run (the executed list
is exactly the commands up to and including the failing one). -/
theorem c3_task_fail_fast (world : Nat → Option Int) (name : String)
    (config : OneFTaskConfig) (cmds : List String)
    (hc : config.cmds = some cmds) (hne : cmds ≠ []) :
    ((∀ i, i < cmds.length → world i = some 0) →
        runConfiguredTask world name config = (cmds, .ok ()))
    ∧ (∀ j, j < cmds.length → (∀ i, i < j → world i = some 0) →
        world j ≠ some 0 →
        runConfiguredTask world name config
          = (cmds.take (j + 1), .error (taskCmdFailureMsg name (world j))))
    ∧ (∀ code, ∃ tail, taskCmdFailureMsg name code = "Task '" ++ name ++ tail) := by
  refine ⟨fun h => ?_, fun j hj hprev hfail => ?_, fun code =>
    ⟨"' command exited with code " ++ toString (code.getD (-1)),
      by simp [taskCmdFailureMsg, String.append_assoc]⟩⟩
  · have := runTaskCmds_all_ok world name cmds 0 (fun i hi => by
      simpa using h i hi)
    simp [runConfiguredTask, hc, hne, this]
  · have := runTaskCmds_first_fail world name cmds 0 j hj
      (fun i hi => by simpa using hprev i hi) (by simpa using hfail)
    simpa [runConfiguredTask, hc, hne] using this

/-- A concrete command oracle for the C3 witness: the second command exits
with code 2, all others succeed. -/
def c3World : Nat → Option Int := fun i => if i = 1 then some 2 else some 0

/-- A concrete three-command task for the C3 witness. -/
def c3Config : OneFTaskConfig := { cmds := some ["bun install", "bun test", "bun build"] }

/-- Witness for C3: with the second command failing with code 2, exactly the
first two commands run and the error names the task. -/
theorem c3_task_fail_fast_witness :
    runConfiguredTask c3World "ci" c3Config
      = (["bun install", "bun test"], .error (taskCmdFailureMsg "ci" (some 2))) := by
  have h := (c3_task_fail_fast c3World "ci" c3Config
      ["bun install", "bun test", "bun build"] rfl (by decide)).2.1 1
    (by decide)
    (fun i hi => by
      have : i = 0 := by omega
      subst this
      rfl)
    (by decide)
  simpa [c3World] using h

/-! ## Command registry (source: `commandRegistry`, `commandCatalog`,
`registerCommand`, `registerConfigTasks`, and the built-in registrations in
`main`)

Handlers are closures in the source; they are modelled by tags recording
which handler was stored.  `registerCommand` stores the telemetry wrapper
`() => executeCommandWithTelemetry(name, handler)`, modelled by the
`telemetryWrapped` constructor.  The JS `Map` is modelled by an association
list with insert-or-overwrite (`mapSet`) semantics. -/

inductive Handler where
  | builtin (name : String)
  | configTask (name : String)
  | telemetryWrapped (name : String) (inner : Handler)
deriving DecidableEq

structure RegState where
  catalog : List (String × String)
  registry : List (String × Handler)
deriving DecidableEq

/-- JS `Map.prototype.get`. -/
def mapGet : List (String × Handler) → String → Option Handler
  | [], _ => none
  | (a, b) :: rest, k => if a = k then some b else mapGet rest k

/-- JS `Map.prototype.has`. -/
def mapHas (r : List (String × Handler)) (k : String) : Bool :=
  (mapGet r k).isSome

/-- JS `Map.prototype.set`: overwrite in place, else append. -/
def mapSet : List (String × Handler) → String → Handler → List (String × Handler)
  | [], k, v => [(k, v)]
  | (a, b) :: rest, k, v =>
    if a = k then (k, v) :: rest else (a, b) :: mapSet rest k v

/-- The module-level initial state: the catalog starts with the `help`
display entry; the registry starts empty. -/
def initialState : RegState :=
  { catalog := [("help", "Help about any command")], registry := [] }

/-- Source `registerCommand`: push a catalog entry and set a telemetry-wrapped
handler in the registry (unconditionally). -/
def registerCommand (st : RegState) (name description : String)
    (handler : Handler) : RegState :=
  { catalog := st.catalog ++ [(name, description)],
    registry := mapSet st.registry name (.telemetryWrapped name handler) }

/-- The ten built-in registrations performed by `main`, in source order. -/
def builtinRegistrations : List (String × String) :=
  [("commit", "Generate a commit message with GPT-5 nano, create the commit, and push it"),
   ("commitPush", "Generate a commit message with GPT-5 nano, create the commit, and push it"),
   ("dbOpen", "Open the project SQLite database in TablePlus"),
   ("dbClear", "Remove all data from the project SQLite database"),
   ("update", "Update dependencies (bun) and pull latest git changes"),
   ("setup", "Validate required secrets and run the setup task from 1f.toml"),
   ("tasks", "List tasks defined in 1f.toml"),
   ("test", "Fuzzy select a test file under tests/ then run bun --watch"),
   ("chat", "Open a ChatGPT-like TUI for quick requests"),
   ("version", "Print the current fast release")]

def builtinCommandNames : List String := builtinRegistrations.map Prod.fst

/-- The registry state after `main` has registered the built-ins. -/
def builtinState : RegState :=
  builtinRegistrations.foldl
    (fun s p => registerCommand s p.1 p.2 (.builtin p.1)) initialState

/-- The description chosen by `registerConfigTasks` for a task. -/
def taskDescription (name : String) (config : OneFTaskConfig) : String :=
  config.desc.getD ("Run " ++ name ++ " task from 1f.toml")

/-- Source `registerConfigTasks`, additionally returning the trace of task
names actually passed to `registerCommand` (names already present in the
registry are skipped). -/
def registerConfigTasksT (st : RegState) :
    List (String × OneFTaskConfig) → RegState × List String
  | [] => (st, [])
  | (taskName, taskConfig) :: rest =>
    if mapHas st.registry taskName then registerConfigTasksT st rest
    else
      let st' := registerCommand st taskName
        (taskDescription taskName taskConfig) (.configTask taskName)
      let r := registerConfigTasksT st' rest
      (r.1, taskName :: r.2)

/-- The registry state after startup: built-ins first, then config tasks. -/
def startupState (tasks : List (String × OneFTaskConfig)) : RegState :=
  (registerConfigTasksT builtinState tasks).1

/-- The names passed to `registerCommand` during startup, in order. -/
def startupTrace (tasks : List (String × OneFTaskConfig)) : List String :=
  builtinCommandNames ++ (registerConfigTasksT builtinState tasks).2

/-! ### Association-list facts -/

theorem mapGet_set_self : ∀ (r : List (String × Handler)) (k : String) (v : Handler),
    mapGet (mapSet r k v) k = some v
  | [], k, v => by simp [mapSet, mapGet]
  | (a, b) :: rest, k, v => by
    by_cases h : a = k
    · simp [mapSet, mapGet, h]
    · simp [mapSet, mapGet, h, mapGet_set_self rest k v]

theorem mapGet_set_ne : ∀ (r : List (String × Handler)) (k : String) (v : Handler)
    (x : String), x ≠ k → mapGet (mapSet r k v) x = mapGet r x
  | [], k, v, x, hx => by
    simp [mapSet, mapGet, Ne.symm hx]
  | (a, b) :: rest, k, v, x, hx => by
    by_cases h : a = k
    · subst h
      simp [mapSet, mapGet, Ne.symm hx]
    · simp [mapSet, mapGet, h, mapGet_set_ne rest k v x hx]

theorem mapHas_set_mono {r : List (String × Handler)} {x : String}
    (k : String) (v : Handler) (h : mapHas r x = true) :
    mapHas (mapSet r k v) x = true := by
  by_cases hx : x = k
  · subst hx
    simp [mapHas, mapGet_set_self]
  · simpa [mapHas, mapGet_set_ne r k v x hx] using h

theorem registerConfigTasksT_cons_skip {st : RegState} {m : String}
    {t : OneFTaskConfig} {rest : List (String × OneFTaskConfig)}
    (h : mapHas st.registry m = true) :
    registerConfigTasksT st ((m, t) :: rest) = registerConfigTasksT st rest := by
  simp [registerConfigTasksT, h]

theorem registerConfigTasksT_cons_new {st : RegState} {m : String}
    {t : OneFTaskConfig} {rest : List (String × OneFTaskConfig)}
    (h : mapHas st.registry m = false) :
    registerConfigTasksT st ((m, t) :: rest)
      = ((registerConfigTasksT
            (registerCommand st m (taskDescription m t) (.configTask m)) rest).1,
         m :: (registerConfigTasksT
            (registerCommand st m (taskDescription m t) (.configTask m)) rest).2) := by
  simp [registerConfigTasksT, h]

theorem registerCommand_get_ne {st : RegState} {m x : String}
    (d : String) (h : Handler) (hxm : x ≠ m) :
    mapGet (registerCommand st m d h).registry x = mapGet st.registry x :=
  mapGet_set_ne st.registry m _ x hxm

theorem registerCommand_has_ne {st : RegState} {m x : String}
    (d : String) (h : Handler) (hxm : x ≠ m) :
    mapHas (registerCommand st m d h).registry x = mapHas st.registry x := by
  simp [mapHas, registerCommand_get_ne d h hxm]

theorem registerCommand_count_ne {st : RegState} {m x : String}
    (d : String) (h : Handler) (hxm : x ≠ m) :
    (registerCommand st m d h).catalog.countP (fun e => e.1 == x)
      = st.catalog.countP (fun e => e.1 == x) := by
  simp [registerCommand, List.countP_append, List.countP_cons,
    beq_iff_eq, Ne.symm hxm]

/-- Registering further config tasks never changes the registry entry or the
catalog occurrence count of a name that is already registered. -/
theorem registerConfigTasksT_preserves (x : String) :
    ∀ (tasks : List (String × OneFTaskConfig)) (st : RegState),
      mapHas st.registry x = true →
      mapGet (registerConfigTasksT st tasks).1.registry x = mapGet st.registry x
      ∧ (registerConfigTasksT st tasks).1.catalog.countP (fun e => e.1 == x)
          = st.catalog.countP (fun e => e.1 == x)
  | [], st, _ => ⟨rfl, rfl⟩
  | (n, t) :: rest, st, hx => by
    cases hn : mapHas st.registry n with
    | true =>
      rw [registerConfigTasksT_cons_skip hn]
      exact registerConfigTasksT_preserves x rest st hx
    | false =>
      have hxn : x ≠ n := fun h => by rw [h, hn] at hx; cases hx
      have hhas : mapHas (registerCommand st n (taskDescription n t)
          (.configTask n)).registry x = true := by
        rw [registerCommand_has_ne _ _ hxn]; exact hx
      have ih := registerConfigTasksT_preserves x rest
        (registerCommand st n (taskDescription n t) (.configTask n)) hhas
      rw [registerConfigTasksT_cons_new hn]
      exact ⟨by rw [ih.1, registerCommand_get_ne _ _ hxn],
        by rw [ih.2, registerCommand_count_ne _ _ hxn]⟩

/-- The trace produced by `registerConfigTasksT` has no duplicates and only
contains names absent from the starting registry. -/
theorem registerConfigTasksT_trace :
    ∀ (tasks : List (String × OneFTaskConfig)) (st : RegState),
      (registerConfigTasksT st tasks).2.Nodup
      ∧ ∀ n ∈ (registerConfigTasksT st tasks).2, mapHas st.registry n = false
  | [], _ => ⟨List.nodup_nil, by simp [registerConfigTasksT]⟩
  | (m, t) :: rest, st => by
    cases hm : mapHas st.registry m with
    | true =>
      rw [registerConfigTasksT_cons_skip hm]
      exact registerConfigTasksT_trace rest st
    | false =>
      have ih := registerConfigTasksT_trace rest
        (registerCommand st m (taskDescription m t) (.configTask m))
      have hself : mapHas (registerCommand st m (taskDescription m t)
          (.configTask m)).registry m = true := by
        simp [registerCommand, mapHas, mapGet_set_self]
      have hmem : m ∉ (registerConfigTasksT
          (registerCommand st m (taskDescription m t) (.configTask m)) rest).2 := by
        intro hc
        rw [ih.2 m hc] at hself
        cases hself
      rw [registerConfigTasksT_cons_new hm]
      refine ⟨List.nodup_cons.mpr ⟨hmem, ih.1⟩, ?_⟩
      intro n hn
      rcases List.mem_cons.mp hn with rfl | hn
      · exact hm
      · cases hq : mapHas st.registry n with
        | false => rfl
        | true =>
          exfalso
          have hmono := @mapHas_set_mono st.registry n m
            (.telemetryWrapped m (.configTask m)) hq
          have : mapHas (registerCommand st m (taskDescription m t)
              (.configTask m)).registry n = true := hmono
          rw [ih.2 n hn] at this
          cases this

/-- A task name absent from the starting registry and present in the task
list ends up registered with a telemetry-wrapped task handler. -/
theorem registerConfigTasksT_registers (x : String) :
    ∀ (tasks : List (String × OneFTaskConfig)) (st : RegState)
      (cfg : OneFTaskConfig), (x, cfg) ∈ tasks → mapHas st.registry x = false →
      mapGet (registerConfigTasksT st tasks).1.registry x
        = some (.telemetryWrapped x (.configTask x))
  | [], _, _, hmem, _ => absurd hmem (List.not_mem_nil _)
  | (m, t) :: rest, st, cfg, hmem, hx => by
    cases hm : mapHas st.registry m with
    | true =>
      have hxm : x ≠ m := fun h => by rw [h, hm] at hx; cases hx
      have hmem' : (x, cfg) ∈ rest := by
        rcases List.mem_cons.mp hmem with h | h
        · exact absurd (congrArg Prod.fst h) hxm
        · exact h
      rw [registerConfigTasksT_cons_skip hm]
      exact registerConfigTasksT_registers x rest st cfg hmem' hx
    | false =>
      by_cases hxm : x = m
      · subst hxm
        have hget : mapGet (registerCommand st x (taskDescription x t)
            (.configTask x)).registry x
            = some (.telemetryWrapped x (.configTask x)) := by
          simp [registerCommand, mapGet_set_self]
        have hhas : mapHas (registerCommand st x (taskDescription x t)
            (.configTask x)).registry x = true := by
          simp [mapHas, hget]
        have hpres := (registerConfigTasksT_preserves x rest
          (registerCommand st x (taskDescription x t) (.configTask x)) hhas).1
        rw [registerConfigTasksT_cons_new hm]
        exact hpres.trans hget
      · have hmem' : (x, cfg) ∈ rest := by
          rcases List.mem_cons.mp hmem with h | h
          · exact absurd (congrArg Prod.fst h) hxm
          · exact h
        have hhas : mapHas (registerCommand st m (taskDescription m t)
            (.configTask m)).registry x = false := by
          rw [registerCommand_has_ne _ _ hxm]; exact hx
        rw [registerConfigTasksT_cons_new hm]
        exact registerConfigTasksT_registers x rest _ cfg hmem' hhas

/-- Catalog count of a task name that is fresh for the registry: exactly one
more than before (the first occurrence is pushed once; any further
occurrences are skipped). -/
theorem registerConfigTasksT_catalog_new (x : String) :
    ∀ (tasks : List (String × OneFTaskConfig)) (st : RegState),
      (∃ cfg, (x, cfg) ∈ tasks) → mapHas st.registry x = false →
      (registerConfigTasksT st tasks).1.catalog.countP (fun e => e.1 == x)
        = st.catalog.countP (fun e => e.1 == x) + 1
  | [], _, hmem, _ => absurd hmem.choose_spec (List.not_mem_nil _)
  | (m, t) :: rest, st, hmem, hx => by
    cases hm : mapHas st.registry m with
    | true =>
      have hxm : x ≠ m := fun h => by rw [h, hm] at hx; cases hx
      obtain ⟨cfg, hcfg⟩ := hmem
      have hmem' : (x, cfg) ∈ rest := by
        rcases List.mem_cons.mp hcfg with h | h
        · exact absurd (congrArg Prod.fst h) hxm
        · exact h
      rw [registerConfigTasksT_cons_skip hm]
      exact registerConfigTasksT_catalog_new x rest st ⟨cfg, hmem'⟩ hx
    | false =>
      by_cases hxm : x = m
      · subst hxm
        have hhas : mapHas (registerCommand st x (taskDescription x t)
            (.configTask x)).registry x = true := by
          simp [registerCommand, mapHas, mapGet_set_self]
        have hpres := (registerConfigTasksT_preserves x rest
          (registerCommand st x (taskDescription x t) (.configTask x)) hhas).2
        rw [registerConfigTasksT_cons_new hm]
        rw [hpres]
        simp [registerCommand, List.countP_append, List.countP_cons]
      · obtain ⟨cfg, hcfg⟩ := hmem
        have hmem' : (x, cfg) ∈ rest := by
          rcases List.mem_cons.mp hcfg with h | h
          · exact absurd (congrArg Prod.fst h) hxm
          · exact h
        have hhas : mapHas (registerCommand st m (taskDescription m t)
            (.configTask m)).registry x = false := by
          rw [registerCommand_has_ne _ _ hxm]; exact hx
        have ih := registerConfigTasksT_catalog_new x rest _ ⟨cfg, hmem'⟩ hhas
        rw [registerConfigTasksT_cons_new hm]
        rw [ih, registerCommand_count_ne _ _ hxm]

/-! ## Claim C1 -/

/-- C1: over any startup registration sequence (built-ins first, then
configuration tasks), every name is passed to `registerCommand` at most once
(the startup trace has no duplicates), each built-in keeps its own
telemetry-wrapped handler in the registry (first writer wins, a colliding
configuration task never overrides it), and a configuration task whose name
collides with a registered built-in adds no catalog entry (the built-in's
name stays listed exactly once). -/
theorem c1_registration_first_writer_wins (tasks : List (String × OneFTaskConfig)) :
    (startupTrace tasks).Nodup
    ∧ (∀ p ∈ builtinRegistrations,
        mapGet (startupState tasks).registry p.1
          = some (.telemetryWrapped p.1 (.builtin p.1)))
    ∧ (∀ p ∈ builtinRegistrations,
        (startupState tasks).catalog.countP (fun e => e.1 == p.1) = 1) := by
  have hbn : builtinCommandNames.Nodup := by decide
  have hbhas : ∀ b ∈ builtinCommandNames, mapHas builtinState.registry b = true := by
    decide
  have hbget : ∀ p ∈ builtinRegistrations,
      mapGet builtinState.registry p.1
        = some (.telemetryWrapped p.1 (.builtin p.1)) := by decide
  have hbcnt : ∀ p ∈ builtinRegistrations,
      builtinState.catalog.countP (fun e => e.1 == p.1) = 1 := by decide
  have htr := registerConfigTasksT_trace tasks builtinState
  refine ⟨?_, fun p hp => ?_, fun p hp => ?_⟩
  · simp only [startupTrace]
    refine List.Nodup.append hbn htr.1 ?_
    intro a ha hamem
    have h1 := hbhas a ha
    have h2 := htr.2 a hamem
    rw [h2] at h1
    cases h1
  · have hhas := hbhas p.1 (List.mem_map_of_mem Prod.fst hp)
    have hpres := (registerConfigTasksT_preserves p.1 tasks builtinState hhas).1
    simp only [startupState]
    rw [hpres]
    exact hbget p hp
  · have hhas := hbhas p.1 (List.mem_map_of_mem Prod.fst hp)
    have hpres := (registerConfigTasksT_preserves p.1 tasks builtinState hhas).2
    simp only [startupState]
    rw [hpres]
    exact hbcnt p hp

/-- A concrete task list for the C1 witness: one task colliding with the
built-in `commit`, one fresh task. -/
def c1Tasks : List (String × OneFTaskConfig) :=
  [("commit", { cmds := some ["echo hi"] }), ("deploy", { cmds := some ["echo done"] })]

/-- Witness for C1 at a concrete task list. -/
theorem c1_registration_first_writer_wins_witness :
    (startupTrace c1Tasks).Nodup
    ∧ mapGet (startupState c1Tasks).registry "commit"
        = some (.telemetryWrapped "commit" (.builtin "commit"))
    ∧ (startupState c1Tasks).catalog.countP (fun e => e.1 == "commit") = 1 := by
  have h := c1_registration_first_writer_wins c1Tasks
  exact ⟨h.1,
    h.2.1 ("commit",
      "Generate a commit message with GPT-5 nano, create the commit, and push it")
      (by decide),
    h.2.2 ("commit",
      "Generate a commit message with GPT-5 nano, create the commit, and push it")
      (by decide)⟩

/-! ## Claim C9 -/

/-- C9: a configuration task with an empty (or absent) `cmds` list fails at
invocation time with an error naming the task and runs no commands, while its
registration at load time still succeeds (the handler is present in the
registry regardless of the empty command list). -/
theorem c9_empty_task_invocation_failure :
    (∀ (world : Nat → Option Int) (name : String) (config : OneFTaskConfig),
        config.cmds = none ∨ config.cmds = some [] →
        runConfiguredTask world name config
          = ([], .error ("Task '" ++ name ++ "' has no commands to run")))
    ∧ (∀ (name : String) (config : OneFTaskConfig),
        mapHas builtinState.registry name = false →
        mapGet (startupState [(name, config)]).registry name
          = some (.telemetryWrapped name (.configTask name))) := by
  constructor
  · intro world name config h
    rcases h with h | h <;> simp [runConfiguredTask, h]
  · intro name config h
    exact registerConfigTasksT_registers name [(name, config)] builtinState config
      (by simp) h

/-- A concrete task with an empty command list. -/
def c9Config : OneFTaskConfig := { cmds := some [] }

/-- Witness for C9: the `empty` task registers fine but fails when invoked,
running nothing. -/
theorem c9_empty_task_invocation_failure_witness :
    runConfiguredTask (fun _ => some 0) "empty" c9Config
      = ([], .error ("Task '" ++ "empty" ++ "' has no commands to run"))
    ∧ mapGet (startupState [("empty", c9Config)]).registry "empty"
        = some (.telemetryWrapped "empty" (.configTask "empty")) :=
  ⟨c9_empty_task_invocation_failure.1 (fun _ => some 0) "empty" c9Config (Or.inr rfl),
   c9_empty_task_invocation_failure.2 "empty" c9Config (by decide)⟩

/-! ## Dispatch (source: `main` lines after arg resolution, `handleTopLevel`,
`printCommandHelp`, `printRootHelp`)

Console output is modelled as a list of abstract events; invoking a handler
is modelled by the `invoked` dispatch result (the handler body itself is not
run by the dispatcher model). -/

inductive OutEvent where
  | rootHelp
  | versionOut
  | commandHelp (name : String)
  | unknownTopic (topic : String)
  | unknownCommand (name : String)
deriving DecidableEq

inductive DispatchResult where
  | done
  | invoked (name : String)
  | exitWith (code : Int)
deriving DecidableEq

/-- The names for which the source `printCommandHelp` has a `case` and
returns true (built-ins plus the display-only `help`). -/
def printableHelpNames : List String :=
  ["help", "commit", "commitPush", "dbOpen", "dbClear", "update", "setup",
   "tasks", "test", "chat", "version"]

/-- Source `printCommandHelp`: whether dedicated help text exists, and the
output produced. -/
def printCommandHelp (name : String) : Bool × List OutEvent :=
  if name ∈ printableHelpNames then (true, [.commandHelp name]) else (false, [])

/-- Source `handleTopLevel`: returns whether the arguments were handled
(and the output printed). -/
def handleTopLevel : List String → Bool × List OutEvent
  | [] => (true, [.rootHelp])
  | primary :: rest =>
    if primary = "" then (true, [.rootHelp])
    else if primary = "--help" ∨ primary = "-h" ∨ primary = "h" then
      (true, [.rootHelp])
    else if primary = "--version" then (true, [.versionOut])
    else if primary = "help" then
      match rest with
      | [] => (true, [.rootHelp])
      | topic :: _ =>
        if topic = "" then (true, [.rootHelp])
        else
          let r := printCommandHelp topic
          if r.1 then (true, r.2) else (true, [.unknownTopic topic])
    else
      match rest.getLast? with
      | none => (false, [])
      | some last =>
        if last = "--help" ∨ last = "-h" then
          let r := printCommandHelp primary
          if r.1 then (true, r.2) else (true, [.rootHelp])
        else (false, [])

/-- The dispatch tail of the source `main` (after `args` is resolved and
non-empty): run `handleTopLevel`; otherwise look the first token up in the
registry, handle an unknown command (error, root help, exit 1), print command
help when the arguments include a help flag, and otherwise invoke the
handler. -/
def dispatchArgs (st : RegState) (args : List String) :
    DispatchResult × List OutEvent :=
  let h := handleTopLevel args
  if h.1 then (.done, h.2)
  else
    match args with
    | [] => (.done, [.rootHelp])
    | commandKey :: _ =>
      if commandKey = "" then (.done, [.rootHelp])
      else
        match mapGet st.registry commandKey with
        | none => (.exitWith 1, [.unknownCommand commandKey, .rootHelp])
        | some _ =>
          if "--help" ∈ args ∨ "-h" ∈ args then
            let r := printCommandHelp commandKey
            if r.1 then (.done, r.2) else (.done, [.rootHelp])
          else (.invoked commandKey, [])

/-! ### Dispatch evaluation lemmas -/

theorem dispatch_done_of_handled {st : RegState} {args : List String}
    (h : (handleTopLevel args).1 = true) :
    dispatchArgs st args = (.done, (handleTopLevel args).2) := by
  simp [dispatchArgs, h]

theorem handleTopLevel_help_fst (rest : List String) :
    (handleTopLevel ("help" :: rest)).1 = true := by
  cases rest with
  | nil => rfl
  | cons topic rest' =>
    have hstep : handleTopLevel ("help" :: topic :: rest')
        = (if topic = "" then (true, [.rootHelp])
           else if (printCommandHelp topic).1 then (true, (printCommandHelp topic).2)
           else (true, [.unknownTopic topic])) := rfl
    rw [hstep]
    split_ifs <;> rfl

theorem handleTopLevel_keyword_fst (rest : List String) :
    (handleTopLevel ("--help" :: rest)).1 = true
    ∧ (handleTopLevel ("-h" :: rest)).1 = true
    ∧ (handleTopLevel ("h" :: rest)).1 = true
    ∧ (handleTopLevel ("--version" :: rest)).1 = true
    ∧ (handleTopLevel ("" :: rest)).1 = true :=
  ⟨rfl, rfl, rfl, rfl, rfl⟩

theorem handleTopLevel_fallthrough {key last : String} {rest : List String}
    (hlast : rest.getLast? = some last)
    (h0 : ¬ key = "") (h1 : ¬ (key = "--help" ∨ key = "-h" ∨ key = "h"))
    (h2 : ¬ key = "--version") (h3 : ¬ key = "help") :
    handleTopLevel (key :: rest)
      = if last = "--help" ∨ last = "-h" then
          if (printCommandHelp key).1 then (true, (printCommandHelp key).2)
          else (true, [.rootHelp])
        else (false, []) := by
  simp only [handleTopLevel, if_neg h0, if_neg h1, if_neg h2, if_neg h3, hlast]

theorem dispatchArgs_registered_help_flag {st : RegState} {key : String}
    {rest : List String} (hreg : mapHas st.registry key = true)
    (hflag : "--help" ∈ rest ∨ "-h" ∈ rest)
    (h0 : ¬ key = "") (h1 : ¬ (key = "--help" ∨ key = "-h" ∨ key = "h"))
    (h2 : ¬ key = "--version") (h3 : ¬ key = "help") :
    dispatchArgs st (key :: rest)
      = if (printCommandHelp key).1 then (.done, (printCommandHelp key).2)
        else (.done, [.rootHelp]) := by
  have hne : rest ≠ [] := by
    rcases hflag with h | h <;> exact List.ne_nil_of_mem h
  obtain ⟨last, hlast⟩ := Option.isSome_iff_exists.mp (List.getLast?_isSome.mpr hne)
  have hht := handleTopLevel_fallthrough hlast h0 h1 h2 h3
  by_cases hl : last = "--help" ∨ last = "-h"
  · rw [if_pos hl] at hht
    by_cases hp : (printCommandHelp key).1
    · rw [if_pos hp] at hht
      rw [dispatch_done_of_handled (by rw [hht])]
      rw [hht, if_pos hp]
    · rw [if_neg hp] at hht
      rw [dispatch_done_of_handled (by rw [hht])]
      rw [hht, if_neg hp]
  · rw [if_neg hl] at hht
    obtain ⟨v, hv⟩ := Option.isSome_iff_exists.mp hreg
    have hmem : "--help" ∈ (key :: rest) ∨ "-h" ∈ (key :: rest) := by
      rcases hflag with h | h
      · exact Or.inl (List.mem_cons_of_mem _ h)
      · exact Or.inr (List.mem_cons_of_mem _ h)
    have hstep : dispatchArgs st (key :: rest)
        = if (handleTopLevel (key :: rest)).1 then
            (.done, (handleTopLevel (key :: rest)).2)
          else if key = "" then (.done, [.rootHelp])
          else match mapGet st.registry key with
            | none => (.exitWith 1, [.unknownCommand key, .rootHelp])
            | some _ =>
              if "--help" ∈ (key :: rest) ∨ "-h" ∈ (key :: rest) then
                if (printCommandHelp key).1 then (.done, (printCommandHelp key).2)
                else (.done, [.rootHelp])
              else (.invoked key, []) := rfl
    rw [hstep, hht]
    rw [if_neg (by simp)]
    rw [if_neg h0, hv]
    rw [if_pos hmem]

/-! ## Claim C2 (corrected) -/

/-- The startup state containing a configuration task named `build` (used
for the C2 counterexample and witness). -/
def c2State : RegState :=
  startupState [("build", { cmds := some ["bun run build"] })]

/-- C2 counterexample: `build` is a registered command and the remaining
tokens include a help flag, yet dispatch prints the root help, not `build`'s
command help (the source `printCommandHelp` only knows built-in names). -/
theorem c2_counterexample :
    mapHas c2State.registry "build" = true
    ∧ dispatchArgs c2State ["build", "--help"] = (.done, [.rootHelp])
    ∧ OutEvent.commandHelp "build" ∉ (dispatchArgs c2State ["build", "--help"]).2 := by
  decide

/-- C2 (amended): the top-level flags `--help`/`-h`, `--version` and
`help [topic]` short-circuit before the registry is consulted, never invoking
a handler; and when the first token is a registered command and the remaining
tokens include a help flag, dispatch returns without invoking the handler —
printing that command's dedicated help when the command is a built-in with
help text, and the root help otherwise (e.g. for configuration tasks). -/
theorem c2_dispatch_help_short_circuit :
    (∀ (st : RegState) (rest : List String),
        (dispatchArgs st ("--help" :: rest)).1 = .done
        ∧ (dispatchArgs st ("-h" :: rest)).1 = .done
        ∧ (dispatchArgs st ("--version" :: rest)).1 = .done
        ∧ (dispatchArgs st ("help" :: rest)).1 = .done)
    ∧ (∀ (st : RegState) (key : String) (rest : List String),
        mapHas st.registry key = true → ("--help" ∈ rest ∨ "-h" ∈ rest) →
        (dispatchArgs st (key :: rest)).1 = .done)
    ∧ (∀ (st : RegState) (key : String) (rest : List String),
        mapHas st.registry key = true → key ∈ printableHelpNames →
        key ∉ ["", "--help", "-h", "h", "--version", "help"] →
        ("--help" ∈ rest ∨ "-h" ∈ rest) →
        dispatchArgs st (key :: rest) = (.done, [.commandHelp key]))
    ∧ (∀ (st : RegState) (key : String) (rest : List String),
        mapHas st.registry key = true → key ∉ printableHelpNames →
        key ∉ ["", "--help", "-h", "h", "--version"] →
        ("--help" ∈ rest ∨ "-h" ∈ rest) →
        dispatchArgs st (key :: rest) = (.done, [.rootHelp])) := by
  refine ⟨fun st rest => ⟨?_, ?_, ?_, ?_⟩, fun st key rest hreg hflag => ?_,
    fun st key rest hreg hin hnot hflag => ?_,
    fun st key rest hreg hnotp hnot hflag => ?_⟩
  · rw [dispatch_done_of_handled (handleTopLevel_keyword_fst rest).1]
  · rw [dispatch_done_of_handled (handleTopLevel_keyword_fst rest).2.1]
  · rw [dispatch_done_of_handled (handleTopLevel_keyword_fst rest).2.2.2.1]
  · rw [dispatch_done_of_handled (handleTopLevel_help_fst rest)]
  · by_cases h0 : key = ""
    · subst h0
      rw [dispatch_done_of_handled (handleTopLevel_keyword_fst rest).2.2.2.2]
    · by_cases h1 : key = "--help" ∨ key = "-h" ∨ key = "h"
      · rcases h1 with rfl | rfl | rfl
        · rw [dispatch_done_of_handled (handleTopLevel_keyword_fst rest).1]
        · rw [dispatch_done_of_handled (handleTopLevel_keyword_fst rest).2.1]
        · rw [dispatch_done_of_handled (handleTopLevel_keyword_fst rest).2.2.1]
      · by_cases h2 : key = "--version"
        · subst h2
          rw [dispatch_done_of_handled (handleTopLevel_keyword_fst rest).2.2.2.1]
        · by_cases h3 : key = "help"
          · subst h3
            rw [dispatch_done_of_handled (handleTopLevel_help_fst rest)]
          · rw [dispatchArgs_registered_help_flag hreg hflag h0 h1 h2 h3]
            split_ifs <;> rfl
  · simp only [List.mem_cons, List.not_mem_nil, or_false] at hnot
    push_neg at hnot
    obtain ⟨h0, ha, hb, hc, h2, h3⟩ := hnot
    have h1 : ¬ (key = "--help" ∨ key = "-h" ∨ key = "h") := by
      rintro (h | h | h) <;> [exact ha h; exact hb h; exact hc h]
    rw [dispatchArgs_registered_help_flag hreg hflag h0 h1 h2 h3]
    rw [if_pos (by simp [printCommandHelp, hin])]
    simp [printCommandHelp, hin]
  · simp only [List.mem_cons, List.not_mem_nil, or_false] at hnot
    push_neg at hnot
    obtain ⟨h0, ha, hb, hc, h2⟩ := hnot
    have h1 : ¬ (key = "--help" ∨ key = "-h" ∨ key = "h") := by
      rintro (h | h | h) <;> [exact ha h; exact hb h; exact hc h]
    have h3 : ¬ key = "help" := by
      intro h
      exact hnotp (h ▸ (by decide : "help" ∈ printableHelpNames))
    rw [dispatchArgs_registered_help_flag hreg hflag h0 h1 h2 h3]
    rw [if_neg (by simp [printCommandHelp, hnotp])]

/-- Witness for the amended C2: the built-in `commit` with a help flag gets
its dedicated help; the conclusion's hypotheses hold at this input. -/
theorem c2_dispatch_help_short_circuit_witness :
    dispatchArgs c2State ["commit", "--help"] = (.done, [.commandHelp "commit"]) :=
  c2_dispatch_help_short_circuit.2.2.1 c2State "commit" ["--help"]
    (by decide) (by decide) (by decide) (Or.inl (by decide))

/-! ## Claim C10 -/

/-- C10: `help` exists only in the display catalog, never in the built-in
registry; a configuration task named `help` is therefore not skipped — it is
registered and the catalog then lists `help` twice — yet any argument vector
starting with `help` is short-circuited by the top-level handler before the
registry is consulted, so the task's handler is never invoked. -/
theorem c10_help_catalog_only (tasks : List (String × OneFTaskConfig))
    (cfg : OneFTaskConfig) (hmem : ("help", cfg) ∈ tasks) :
    mapHas builtinState.registry "help" = false
    ∧ mapGet (startupState tasks).registry "help"
        = some (.telemetryWrapped "help" (.configTask "help"))
    ∧ (startupState tasks).catalog.countP (fun e => e.1 == "help") = 2
    ∧ ∀ rest, (dispatchArgs (startupState tasks) ("help" :: rest)).1 = .done := by
  have hno : mapHas builtinState.registry "help" = false := by decide
  have hcnt1 : builtinState.catalog.countP (fun e => e.1 == "help") = 1 := by decide
  refine ⟨hno,
    registerConfigTasksT_registers "help" tasks builtinState cfg hmem hno, ?_, ?_⟩
  · have h := registerConfigTasksT_catalog_new "help" tasks builtinState ⟨cfg, hmem⟩ hno
    simp only [startupState]
    rw [h, hcnt1]
  · intro rest
    rw [dispatch_done_of_handled (handleTopLevel_help_fst rest)]

/-- A concrete configuration task named `help`. -/
def c10HelpConfig : OneFTaskConfig := { cmds := some ["echo help"] }

/-- Witness for C10 at a concrete task list defining a `help` task. -/
theorem c10_help_catalog_only_witness :
    mapHas builtinState.registry "help" = false
    ∧ mapGet (startupState [("help", c10HelpConfig)]).registry "help"
        = some (.telemetryWrapped "help" (.configTask "help"))
    ∧ (startupState [("help", c10HelpConfig)]).catalog.countP
        (fun e => e.1 == "help") = 2
    ∧ (dispatchArgs (startupState [("help", c10HelpConfig)]) ["help"]).1 = .done := by
  have h := c10_help_catalog_only [("help", c10HelpConfig)] c10HelpConfig (by simp)
  exact ⟨h.1, h.2.1, h.2.2.1, h.2.2.2 []⟩

/-! ## Secret validation (source: `lookupNonEmptyEnv`, `validateSecrets`,
`runSetup`)

The `OneFSecretConfig` record is declared in the repository's `config.ts`
(not under `src/`); its shape `{label?, required?, description?, default?}`
is taken from the spec's data model and from how `validateSecrets` reads it.
The process environment is a function from variable names to optional raw
values.  The printed report lines are modelled by events carrying exactly
the values interpolated into the source strings. -/

structure OneFSecretConfig where
  label : Option String := none
  required : Option Bool := none
  description : Option String := none
  default : Option String := none
deriving DecidableEq

/-- Source `lookupNonEmptyEnv`: unset or empty raw values give `undefined`;
otherwise the trimmed value when non-empty. -/
def lookupNonEmptyEnv (env : String → Option String) (key : String) :
    Option (List Char) :=
  match env key with
  | none => none
  | some raw =>
    if raw.data = [] then none
    else
      let trimmed := jsTrim raw.data
      if trimmed = [] then none else some trimmed

/-- One report line of `validateSecrets`, as an event carrying the values
interpolated into the corresponding console string. -/
inductive SecretLine where
  | noSecretsDefined
  | isSet (label envName : String)
  | missingWithDefault (label envName dflt : String)
  | requiredMissing (label envName : String) (description : Option String)
  | optionalNotSet (label envName : String)
deriving DecidableEq

/-- The body of the `for` loop in `validateSecrets`, acting on the
accumulated `(lines, missing)` pair. -/
def validateSecretsStep (env : String → Option String)
    (acc : List SecretLine × List String)
    (p : String × OneFSecretConfig) : List SecretLine × List String :=
  let envName := p.1
  let sc := p.2
  let label := sc.label.getD envName
  let required := sc.required.getD false
  match lookupNonEmptyEnv env envName with
  | some _ => (acc.1 ++ [.isSet label envName], acc.2)
  | none =>
    if required then
      match sc.default with
      | some d => (acc.1 ++ [.missingWithDefault label envName d], acc.2)
      | none =>
        (acc.1 ++ [.requiredMissing label envName sc.description],
         acc.2 ++ [envName])
    else (acc.1 ++ [.optionalNotSet label envName], acc.2)

/-- Source `validateSecrets`: report one line per declared secret and collect
the missing required secrets. -/
def validateSecrets (env : String → Option String)
    (secrets : List (String × OneFSecretConfig)) :
    List SecretLine × List String :=
  if secrets = [] then ([.noSecretsDefined], [])
  else secrets.foldl (validateSecretsStep env) ([], [])

/-- The failure decision of `runSetup` after `validateSecrets`: throw listing
all missing secrets together iff the missing list is non-empty. -/
def setupSecretCheck (env : String → Option String)
    (secrets : List (String × OneFSecretConfig)) : Except String Unit :=
  let r := validateSecrets env secrets
  if r.2 = [] then .ok ()
  else .error ("Missing required secrets: " ++ String.intercalate ", " r.2)

/-- Spec-side classification of a single secret, written from the spec's
words: set when the environment variable has a non-empty trimmed value;
otherwise a default-substitution warning if required with a default, missing
if required without one, and optional-not-set otherwise. -/
def specSecretLine (env : String → Option String)
    (p : String × OneFSecretConfig) : SecretLine :=
  let label := p.2.label.getD p.1
  match lookupNonEmptyEnv env p.1 with
  | some _ => .isSet label p.1
  | none =>
    if p.2.required.getD false then
      match p.2.default with
      | some d => .missingWithDefault label p.1 d
      | none => .requiredMissing label p.1 p.2.description
    else .optionalNotSet label p.1

/-- Spec-side failure list: exactly the required secrets that are unset and
have no default, in declaration order. -/
def specMissingSecrets (env : String → Option String)
    (secrets : List (String × OneFSecretConfig)) : List String :=
  (secrets.filter (fun p =>
    (lookupNonEmptyEnv env p.1).isNone && p.2.required.getD false
      && p.2.default.isNone)).map Prod.fst

theorem validateSecrets_foldl (env : String → Option String) :
    ∀ (secrets : List (String × OneFSecretConfig))
      (acc : List SecretLine × List String),
      secrets.foldl (validateSecretsStep env) acc
        = (acc.1 ++ secrets.map (specSecretLine env),
           acc.2 ++ specMissingSecrets env secrets)
  | [], acc => by simp [specMissingSecrets]
  | p :: rest, acc => by
    rw [List.foldl_cons, validateSecrets_foldl env rest]
    simp only [List.map_cons, specMissingSecrets, List.filter_cons]
    cases hlook : lookupNonEmptyEnv env p.1 with
    | some v =>
      simp [validateSecretsStep, specSecretLine, hlook, specMissingSecrets]
    | none =>
      cases hreq : p.2.required.getD false with
      | false =>
        simp [validateSecretsStep, specSecretLine, hlook, hreq, specMissingSecrets]
      | true =>
        cases hdef : p.2.default with
        | some d =>
          simp [validateSecretsStep, specSecretLine, hlook, hreq, hdef,
            specMissingSecrets]
        | none =>
          simp [validateSecretsStep, specSecretLine, hlook, hreq, hdef,
            specMissingSecrets]

/-! ## Claim C6 -/

/-- C6: validation records each secret independently — one line per secret,
classified as set / default-substitution warning / required-missing /
optional-not-set — the failure list is exactly the required secrets that are
unset with no default (all of them, not just the first), and setup fails if
and only if that list is non-empty, reporting them all together. -/
theorem c6_secret_validation (env : String → Option String)
    (secrets : List (String × OneFSecretConfig)) (hne : secrets ≠ []) :
    (validateSecrets env secrets).1 = secrets.map (specSecretLine env)
    ∧ (validateSecrets env secrets).2 = specMissingSecrets env secrets
    ∧ (setupSecretCheck env secrets = .ok ()
        ↔ specMissingSecrets env secrets = [])
    ∧ (specMissingSecrets env secrets ≠ [] →
        setupSecretCheck env secrets
          = .error ("Missing required secrets: "
              ++ String.intercalate ", " (specMissingSecrets env secrets))) := by
  have hv : validateSecrets env secrets
      = (secrets.map (specSecretLine env), specMissingSecrets env secrets) := by
    rw [validateSecrets, if_neg hne, validateSecrets_foldl env secrets ([], [])]
    simp
  refine ⟨by rw [hv], by rw [hv], ?_, ?_⟩
  · constructor
    · intro h
      by_contra hmiss
      rw [setupSecretCheck, hv] at h
      rw [if_neg hmiss] at h
      cases h
    · intro h
      rw [setupSecretCheck, hv]
      simp [h]
  · intro h
    rw [setupSecretCheck, hv]
    rw [if_neg h]

/-- A concrete environment for the C6 witness: only `API_KEY` is set. -/
def c6Env : String → Option String :=
  fun k => if k = "API_KEY" then some " sk-123 " else none

/-- Concrete declared secrets for the C6 witness: `API_KEY` required,
`EXTRA_TOKEN` optional. -/
def c6Secrets : List (String × OneFSecretConfig) :=
  [("API_KEY", { required := some true }), ("EXTRA_TOKEN", {})]

/-- Witness for C6: with only the required secret set, both secrets are
listed, nothing is missing, and setup validation succeeds. -/
theorem c6_secret_validation_witness :
    (validateSecrets c6Env c6Secrets).1 = c6Secrets.map (specSecretLine c6Env)
    ∧ (validateSecrets c6Env c6Secrets).2 = specMissingSecrets c6Env c6Secrets
    ∧ (setupSecretCheck c6Env c6Secrets = .ok ()
        ↔ specMissingSecrets c6Env c6Secrets = []) := by
  have h := c6_secret_validation c6Env c6Secrets (by decide)
  exact ⟨h.1, h.2.1, h.2.2.1⟩

/-! ## Interactive palette (source: `selectCommandArgs` and the selection
handling at the top of `main`)

The selector child process is modelled by its observable outcome: either the
`error` event fired (spawn failure) or the `close` event fired with an exit
code (`none` models a null code) and the accumulated stdout text. -/

inductive CommandPaletteResult where
  | command (args : List (List Char))
  | cancel (code : Int)
  | fallback
deriving DecidableEq

inductive SelectorOutcome where
  | spawnFailed
  | closed (code : Option Int) (stdout : List Char)
deriving DecidableEq

/-- `stdout.split(/\r?\n/).find(line => line.trim().length > 0)`. -/
def firstNonBlankLine (stdout : List Char) : Option (List Char) :=
  (splitLines stdout).find? (fun l => !(jsTrim l).isEmpty)

/-- `firstLine.split("\t")[0]`. -/
def takeBeforeTab (l : List Char) : List Char :=
  l.takeWhile (fun c => c != '\t')

/-- The close/error handling of `selectCommandArgs`: code 0 parses the first
non-blank line's trimmed pre-tab token (empty token → fallback); non-zero or
null code cancels with `code ?? 1`; a spawn error falls back. -/
def interpretSelector : SelectorOutcome → CommandPaletteResult
  | .spawnFailed => .fallback
  | .closed code stdout =>
    if code = some 0 then
      match firstNonBlankLine stdout with
      | none => .fallback
      | some firstLine =>
        let selection := jsTrim (takeBeforeTab firstLine)
        if selection = [] then .fallback else .command [selection]
    else .cancel (code.getD 1)

/-- Source `selectCommandArgs` including its guards: a non-interactive
terminal or missing `fzf` binary falls back before spawning. -/
def selectCommandArgs (tty hasFzf : Bool) (outcome : SelectorOutcome) :
    CommandPaletteResult :=
  if !tty || !hasFzf then .fallback else interpretSelector outcome

/-- How `main` consumes the palette result: command → dispatch those args;
cancel with non-zero code → exit with it, zero → plain return; fallback →
print root help and return. -/
inductive SelectionStep where
  | proceedWith (args : List (List Char))
  | exitProcess (code : Int)
  | quietReturn
  | rootHelpShown
deriving DecidableEq

def mainSelectionStep : CommandPaletteResult → SelectionStep
  | .command args => .proceedWith args
  | .cancel code => if code ≠ 0 then .exitProcess code else .quietReturn
  | .fallback => .rootHelpShown

/-! ## Claim C8 (corrected) -/

/-- C8 counterexample: exit code 0 with the non-empty selected line
`"\tSome description"` (its pre-tab token is blank) yields the fallback
result, not a command built from the token before the first tab. -/
theorem c8_counterexample :
    firstNonBlankLine ("\tSome description\n".toList)
      = some ("\tSome description".toList)
    ∧ (jsTrim ("\tSome description".toList)).isEmpty = false
    ∧ interpretSelector (.closed (some 0) ("\tSome description\n".toList))
        = .fallback := by
  decide

/-- C8 (amended): on exit code 0 the first non-blank output line is taken
and its trimmed pre-tab token becomes the chosen command — as a single-token
argument vector with no remaining arguments — provided that token is
non-blank; a blank token or no non-blank line yields the fallback (root help
is then printed); a non-zero exit yields a cancellation carrying that exit
code, on which the caller exits with that code (a null code cancels with
code 1); and a selector spawn error yields the fallback rather than a hard
failure. -/
theorem c8_selector_outcomes :
    interpretSelector .spawnFailed = .fallback
    ∧ (∀ stdout : List Char, firstNonBlankLine stdout = none →
        interpretSelector (.closed (some 0) stdout) = .fallback)
    ∧ (∀ (stdout fl : List Char), firstNonBlankLine stdout = some fl →
        jsTrim (takeBeforeTab fl) ≠ [] →
        interpretSelector (.closed (some 0) stdout)
          = .command [jsTrim (takeBeforeTab fl)])
    ∧ (∀ (stdout fl : List Char), firstNonBlankLine stdout = some fl →
        jsTrim (takeBeforeTab fl) = [] →
        interpretSelector (.closed (some 0) stdout) = .fallback)
    ∧ (∀ (k : Int) (stdout : List Char), k ≠ 0 →
        interpretSelector (.closed (some k) stdout) = .cancel k)
    ∧ (∀ stdout : List Char,
        interpretSelector (.closed none stdout) = .cancel 1)
    ∧ (∀ o args, interpretSelector o = .command args →
        ∃ s, args = [s] ∧ s ≠ [])
    ∧ (∀ k : Int, k ≠ 0 → mainSelectionStep (.cancel k) = .exitProcess k)
    ∧ mainSelectionStep (.cancel 0) = .quietReturn
    ∧ mainSelectionStep .fallback = .rootHelpShown := by
  refine ⟨rfl, fun stdout h => ?_, fun stdout fl h hsel => ?_,
    fun stdout fl h hsel => ?_, fun k stdout hk => ?_, fun stdout => ?_,
    fun o args h => ?_, fun k hk => ?_, rfl, rfl⟩
  · simp [interpretSelector, h]
  · simp [interpretSelector, h, hsel]
  · simp [interpretSelector, h, hsel]
  · have : (some k : Option Int) ≠ some 0 := by
      intro hc
      exact hk (Option.some_injective Int hc)
    simp [interpretSelector, this]
  · simp [interpretSelector]
  · cases o with
    | spawnFailed => cases h
    | closed code stdout =>
      by_cases hc : code = some 0
      · subst hc
        rw [interpretSelector] at h
        rw [if_pos rfl] at h
        cases hfl : firstNonBlankLine stdout with
        | none => rw [hfl] at h; cases h
        | some fl =>
          rw [hfl] at h
          by_cases hsel : jsTrim (takeBeforeTab fl) = []
          · simp [hsel] at h
          · simp only [if_neg hsel] at h
            cases h
            exact ⟨jsTrim (takeBeforeTab fl), rfl, hsel⟩
      · rw [interpretSelector, if_neg hc] at h
        cases h
  · simp [mainSelectionStep, hk]

/-- Witness for the amended C8 at concrete outcomes: the line
`commit<TAB>description` selects the `commit` token alone, and exit code
130 cancels and makes the caller exit 130. -/
theorem c8_selector_outcomes_witness :
    interpretSelector (.closed (some 0) ("commit\tGenerate a commit\n".toList))
      = .command ["commit".toList]
    ∧ interpretSelector (.closed (some 130) ("".toList)) = .cancel 130
    ∧ mainSelectionStep (.cancel 130) = .exitProcess 130 := by
  refine ⟨?_, ?_, ?_⟩
  · have h := c8_selector_outcomes.2.2.1 ("commit\tGenerate a commit\n".toList)
      ("commit\tGenerate a commit".toList) (by decide) (by decide)
    rw [h]
    decide
  · exact c8_selector_outcomes.2.2.2.2.1 130 ("".toList) (by decide)
  · exact c8_selector_outcomes.2.2.2.2.2.2.2.1 130 (by decide)

/-! ## Identity resolution (source: `applyCommandIdentity`,
`configureCommandIdentity`, `applyAppMetadata`)

`path.basename` / `path.extname` (posix) and JS `String.prototype.replace`
with a plain-string pattern are external library functions; they are modelled
below on `List Char` (`basename`: last path segment ignoring trailing
slashes; `extname`: from the last dot of the basename unless it is the
leading character or the segment is `..`; `replaceFirst`: remove the first
occurrence of the pattern). -/

structure OneFAppConfig where
  name : Option String := none
  description : Option String := none
  version : Option String := none
deriving DecidableEq

structure Identity where
  commandName : List Char
  commandSummary : List Char
  reportedVersion : List Char
deriving DecidableEq

structure IdentityLocks where
  nameLocked : Bool
  summaryLocked : Bool
deriving DecidableEq

/-- The summary template `${base} is CLI to move faster in software projects`. -/
def summarySuffix : List Char := " is CLI to move faster in software projects".toList

/-- Source module-level defaults (`DEFAULT_COMMAND_NAME`, `DEFAULT_SUMMARY`,
`FLOW_VERSION`). -/
def defaultIdentity : Identity :=
  { commandName := "fast".toList,
    commandSummary := "fast is CLI to move faster in software projects".toList,
    reportedVersion := "1.0.0".toList }

/-- Model of posix `path.basename`. -/
def basename (p : List Char) : List Char :=
  let t := (p.reverse.dropWhile (fun c => c == '/')).reverse
  (t.reverse.takeWhile (fun c => c != '/')).reverse

/-- Model of posix `path.extname`. -/
def extname (p : List Char) : List Char :=
  let b := basename p
  let afterDot := (b.reverse.takeWhile (fun c => c != '.')).reverse
  if afterDot.length = b.length then []
  else if b.length = afterDot.length + 1 then []
  else if b = ['.', '.'] then []
  else '.' :: afterDot

def matchesAt : List Char → List Char → Bool
  | [], _ => true
  | _ :: _, [] => false
  | p :: ps, c :: cs => p == c && matchesAt ps cs

def replaceFirstGo (pat : List Char) : List Char → List Char
  | [] => []
  | c :: rest =>
    if matchesAt pat (c :: rest) then (c :: rest).drop pat.length
    else c :: replaceFirstGo pat rest

/-- JS `s.replace(pat, "")` for a plain-string pattern: remove the first
occurrence (the empty pattern matches at index 0 and removes nothing). -/
def replaceFirst (s pat : List Char) : List Char :=
  if pat = [] then s else replaceFirstGo pat s

/-- Lines 87–88 of the source: the command base name derived from a
candidate — trim, strip the extension from the basename, and fall back to
the whole trimmed candidate when that leaves nothing. -/
def deriveBase (candidate : List Char) : List Char :=
  let trimmed := jsTrim candidate
  let base := replaceFirst (basename trimmed) (extname trimmed)
  if base = [] then trimmed else base

/-- Source `applyCommandIdentity`: ignore absent/empty/blank candidates;
otherwise set the command name to the derived base and, when the summary is
not locked, regenerate the summary from that base. -/
def applyCommandIdentity (candidate : Option (List Char))
    (summaryLocked : Bool) (st : Identity) : Identity :=
  match candidate with
  | none => st
  | some cand =>
    if cand = [] then st
    else if jsTrim cand = [] then st
    else
      { st with
        commandName := deriveBase cand,
        commandSummary :=
          if summaryLocked then st.commandSummary
          else deriveBase cand ++ summarySuffix }

/-- The identity state after the environment-summary step of
`configureCommandIdentity`. -/
def configBaseState (env : String → Option String) : Identity :=
  match lookupNonEmptyEnv env "FLOW_COMMAND_SUMMARY" with
  | some s => { defaultIdentity with commandSummary := s }
  | none => defaultIdentity

/-- Source `configureCommandIdentity`: environment summary first (locking the
summary), then the environment name (locking the name) or the invocation
path `process.argv[1] ?? DEFAULT_COMMAND_NAME`. -/
def configureCommandIdentity (env : String → Option String)
    (argv1 : Option (List Char)) : Identity × IdentityLocks :=
  let summaryLocked := (lookupNonEmptyEnv env "FLOW_COMMAND_SUMMARY").isSome
  match lookupNonEmptyEnv env "FLOW_COMMAND_NAME" with
  | some name =>
    (applyCommandIdentity (some name) summaryLocked (configBaseState env),
     { nameLocked := true, summaryLocked := summaryLocked })
  | none =>
    (applyCommandIdentity (some (argv1.getD ("fast".toList))) summaryLocked
       (configBaseState env),
     { nameLocked := false, summaryLocked := summaryLocked })

/-- JS truthiness filter for an optional trimmed string. -/
def truthy (o : Option (List Char)) : Option (List Char) :=
  match o with
  | some l => if l = [] then none else some l
  | none => none

/-- The `appName` branch of `applyAppMetadata` (lines 127–132). -/
def applyAppMetadataName (appName appDescription : Option (List Char))
    (locks : IdentityLocks) (st : Identity) : Identity :=
  match appName with
  | some n =>
    if ¬ locks.nameLocked then
      applyCommandIdentity (some n) (locks.summaryLocked || appDescription.isSome) st
    else st
  | none => st

/-- The summary branch of `applyAppMetadata` (lines 134–140). -/
def applyAppMetadataSummary (appName appDescription : Option (List Char))
    (locks : IdentityLocks) (st : Identity) : Identity :=
  if ¬ locks.summaryLocked then
    match appDescription with
    | some d => { st with commandSummary := d }
    | none =>
      match appName with
      | some n => { st with commandSummary := n ++ summarySuffix }
      | none => st
  else st

/-- The version branch of `applyAppMetadata` (lines 142–144). -/
def applyAppMetadataVersion (version : Option String) (st : Identity) : Identity :=
  match version with
  | some v =>
    if jsTrim v.data ≠ [] then { st with reportedVersion := jsTrim v.data }
    else st
  | none => st

/-- Source `applyAppMetadata`. -/
def applyAppMetadata (app : Option OneFAppConfig) (locks : IdentityLocks)
    (st : Identity) : Identity :=
  match app with
  | none => st
  | some a =>
    let appName := truthy (a.name.map (fun s => jsTrim s.data))
    let appDescription := truthy (a.description.map (fun s => jsTrim s.data))
    applyAppMetadataVersion a.version
      (applyAppMetadataSummary appName appDescription locks
        (applyAppMetadataName appName appDescription locks st))

/-- The startup identity resolution: `configureCommandIdentity` then
`applyAppMetadata` with the locks it returned. -/
def resolveIdentity (env : String → Option String) (argv1 : Option (List Char))
    (app : Option OneFAppConfig) : Identity :=
  let r := configureCommandIdentity env argv1
  applyAppMetadata app r.2 r.1

/-! ### Identity evaluation lemmas -/

theorem applyCommandIdentity_apply {cand : List Char} (lockS : Bool)
    (st : Identity) (h1 : cand ≠ []) (h2 : jsTrim cand ≠ []) :
    applyCommandIdentity (some cand) lockS st
      = { st with
          commandName := deriveBase cand,
          commandSummary :=
            if lockS then st.commandSummary
            else deriveBase cand ++ summarySuffix } := by
  simp [applyCommandIdentity, h1, h2]

theorem applyCommandIdentity_summary_locked (c : Option (List Char))
    (st : Identity) :
    (applyCommandIdentity c true st).commandSummary = st.commandSummary := by
  cases c with
  | none => rfl
  | some cand =>
    by_cases h1 : cand = []
    · simp [applyCommandIdentity, h1]
    · by_cases h2 : jsTrim cand = []
      · simp [applyCommandIdentity, h1, h2]
      · simp [applyCommandIdentity, h1, h2]

theorem applyAppMetadataVersion_commandName (v : Option String) (st : Identity) :
    (applyAppMetadataVersion v st).commandName = st.commandName := by
  cases v with
  | none => rfl
  | some s =>
    by_cases h : jsTrim s.data = [] <;> simp [applyAppMetadataVersion, h]

theorem applyAppMetadataVersion_commandSummary (v : Option String) (st : Identity) :
    (applyAppMetadataVersion v st).commandSummary = st.commandSummary := by
  cases v with
  | none => rfl
  | some s =>
    by_cases h : jsTrim s.data = [] <;> simp [applyAppMetadataVersion, h]

theorem applyAppMetadataSummary_commandName (an ad : Option (List Char))
    (locks : IdentityLocks) (st : Identity) :
    (applyAppMetadataSummary an ad locks st).commandName = st.commandName := by
  by_cases h : locks.summaryLocked
  · simp [applyAppMetadataSummary, h]
  · cases ad with
    | some d => simp [applyAppMetadataSummary, h]
    | none =>
      cases an with
      | some n => simp [applyAppMetadataSummary, h]
      | none => simp [applyAppMetadataSummary, h]

theorem applyAppMetadataSummary_locked (an ad : Option (List Char))
    {locks : IdentityLocks} (st : Identity) (h : locks.summaryLocked = true) :
    applyAppMetadataSummary an ad locks st = st := by
  simp [applyAppMetadataSummary, h]

theorem applyAppMetadataSummary_desc (an : Option (List Char)) (d : List Char)
    {locks : IdentityLocks} (st : Identity) (h : locks.summaryLocked = false) :
    applyAppMetadataSummary an (some d) locks st
      = { st with commandSummary := d } := by
  simp [applyAppMetadataSummary, h]

theorem applyAppMetadataSummary_name (n : List Char) {locks : IdentityLocks}
    (st : Identity) (h : locks.summaryLocked = false) :
    applyAppMetadataSummary (some n) none locks st
      = { st with commandSummary := n ++ summarySuffix } := by
  simp [applyAppMetadataSummary, h]

theorem applyAppMetadataSummary_none {locks : IdentityLocks} (st : Identity)
    (h : locks.summaryLocked = false) :
    applyAppMetadataSummary none none locks st = st := by
  simp [applyAppMetadataSummary, h]

theorem applyAppMetadataName_locked (an ad : Option (List Char))
    {locks : IdentityLocks} (st : Identity) (h : locks.nameLocked = true) :
    applyAppMetadataName an ad locks st = st := by
  cases an <;> simp [applyAppMetadataName, h]

theorem applyAppMetadataName_apply (n : List Char) (ad : Option (List Char))
    {locks : IdentityLocks} (st : Identity) (h : locks.nameLocked = false) :
    applyAppMetadataName (some n) ad locks st
      = applyCommandIdentity (some n) (locks.summaryLocked || ad.isSome) st := by
  simp [applyAppMetadataName, h]

theorem applyAppMetadataName_summary_locked (an ad : Option (List Char))
    {locks : IdentityLocks} (st : Identity) (h : locks.summaryLocked = true) :
    (applyAppMetadataName an ad locks st).commandSummary = st.commandSummary := by
  cases an with
  | none => rfl
  | some n =>
    cases hn : locks.nameLocked with
    | true => rw [applyAppMetadataName_locked _ _ _ hn]
    | false =>
      rw [applyAppMetadataName_apply _ _ _ hn, h]
      exact applyCommandIdentity_summary_locked _ st

theorem lookupNonEmptyEnv_props {env : String → Option String} {k : String}
    {n : List Char} (h : lookupNonEmptyEnv env k = some n) :
    n ≠ [] ∧ jsTrim n ≠ [] := by
  cases henv : env k with
  | none => simp [lookupNonEmptyEnv, henv] at h
  | some raw =>
    simp only [lookupNonEmptyEnv, henv] at h
    by_cases h1 : raw.data = []
    · rw [if_pos h1] at h; cases h
    · rw [if_neg h1] at h
      by_cases h2 : jsTrim raw.data = []
      · simp only [if_pos h2] at h; cases h
      · simp only [if_neg h2] at h
        cases h
        exact ⟨h2, jsTrim_jsTrim_ne_nil h2⟩

theorem applyAppMetadata_none (locks : IdentityLocks) (st : Identity) :
    applyAppMetadata none locks st = st := rfl

theorem applyAppMetadata_some (a : OneFAppConfig) (locks : IdentityLocks)
    (st : Identity) :
    applyAppMetadata (some a) locks st
      = applyAppMetadataVersion a.version
          (applyAppMetadataSummary (truthy (a.name.map (fun s => jsTrim s.data)))
            (truthy (a.description.map (fun s => jsTrim s.data))) locks
            (applyAppMetadataName (truthy (a.name.map (fun s => jsTrim s.data)))
              (truthy (a.description.map (fun s => jsTrim s.data))) locks st)) := rfl

theorem configureCommandIdentity_env_name {env : String → Option String}
    (argv1 : Option (List Char)) {n : List Char}
    (h : lookupNonEmptyEnv env "FLOW_COMMAND_NAME" = some n) :
    configureCommandIdentity env argv1
      = (applyCommandIdentity (some n)
           (lookupNonEmptyEnv env "FLOW_COMMAND_SUMMARY").isSome
           (configBaseState env),
         { nameLocked := true,
           summaryLocked := (lookupNonEmptyEnv env "FLOW_COMMAND_SUMMARY").isSome }) := by
  simp only [configureCommandIdentity, h]

theorem configureCommandIdentity_no_env_name {env : String → Option String}
    (argv1 : Option (List Char))
    (h : lookupNonEmptyEnv env "FLOW_COMMAND_NAME" = none) :
    configureCommandIdentity env argv1
      = (applyCommandIdentity (some (argv1.getD ("fast".toList)))
           (lookupNonEmptyEnv env "FLOW_COMMAND_SUMMARY").isSome
           (configBaseState env),
         { nameLocked := false,
           summaryLocked := (lookupNonEmptyEnv env "FLOW_COMMAND_SUMMARY").isSome }) := by
  simp only [configureCommandIdentity, h]

/-! ## Claim C7 (corrected) -/

/-- The environment for the C7 counterexample: only `FLOW_COMMAND_NAME` is
set, to `envcli`. -/
def c7Env : String → Option String :=
  fun k => if k = "FLOW_COMMAND_NAME" then some "envcli" else none

/-- A configuration `[app]` table with a name and no description. -/
def c7App : OneFAppConfig := { name := some "appcli" }

/-- C7 counterexample: with the name locked by the environment (`envcli`
wins) and a configuration app name `appcli` with no description, the unlocked
summary is regenerated from the losing configuration name, not from the name
that won. -/
theorem c7_counterexample :
    (resolveIdentity c7Env (some ("/usr/bin/tool".toList)) (some c7App)).commandName
      = "envcli".toList
    ∧ (resolveIdentity c7Env (some ("/usr/bin/tool".toList)) (some c7App)).commandSummary
        = "appcli".toList ++ summarySuffix
    ∧ "appcli".toList ++ summarySuffix ≠ "envcli".toList ++ summarySuffix := by
  decide

/-- C7 (amended): the resolved command name obeys the precedence environment
override > configuration app name > invocation-derived default, and a locked
field is never overwritten by a lower-precedence source (an environment
summary always survives; an environment name is never replaced by the
configuration).  An unlocked summary follows an explicit configuration
description first; failing that it is regenerated from the configuration app
name whenever one exists — even when the name field itself was locked by the
environment override — and only otherwise from the name that won. -/
theorem c7_identity_precedence (env : String → Option String)
    (argv1 : Option (List Char)) (app : Option OneFAppConfig) :
    (∀ n, lookupNonEmptyEnv env "FLOW_COMMAND_NAME" = some n →
        (resolveIdentity env argv1 app).commandName = deriveBase n)
    ∧ (∀ a s, lookupNonEmptyEnv env "FLOW_COMMAND_NAME" = none →
        app = some a → a.name = some s → jsTrim s.data ≠ [] →
        (resolveIdentity env argv1 app).commandName = deriveBase (jsTrim s.data))
    ∧ (lookupNonEmptyEnv env "FLOW_COMMAND_NAME" = none →
        (app = none ∨ ∃ a, app = some a
            ∧ truthy (a.name.map (fun s => jsTrim s.data)) = none) →
        jsTrim (argv1.getD ("fast".toList)) ≠ [] →
        (resolveIdentity env argv1 app).commandName
          = deriveBase (argv1.getD ("fast".toList)))
    ∧ (∀ s, lookupNonEmptyEnv env "FLOW_COMMAND_SUMMARY" = some s →
        (resolveIdentity env argv1 app).commandSummary = s)
    ∧ (∀ a n, lookupNonEmptyEnv env "FLOW_COMMAND_SUMMARY" = none →
        app = some a →
        truthy (a.name.map (fun s => jsTrim s.data)) = some n →
        truthy (a.description.map (fun s => jsTrim s.data)) = none →
        (resolveIdentity env argv1 app).commandSummary = n ++ summarySuffix)
    ∧ (∀ a d, lookupNonEmptyEnv env "FLOW_COMMAND_SUMMARY" = none →
        app = some a →
        truthy (a.description.map (fun s => jsTrim s.data)) = some d →
        (resolveIdentity env argv1 app).commandSummary = d)
    ∧ (lookupNonEmptyEnv env "FLOW_COMMAND_SUMMARY" = none →
        lookupNonEmptyEnv env "FLOW_COMMAND_NAME" = none →
        (app = none ∨ ∃ a, app = some a
            ∧ truthy (a.name.map (fun s => jsTrim s.data)) = none
            ∧ truthy (a.description.map (fun s => jsTrim s.data)) = none) →
        jsTrim (argv1.getD ("fast".toList)) ≠ [] →
        (resolveIdentity env argv1 app).commandSummary
          = deriveBase (argv1.getD ("fast".toList)) ++ summarySuffix)
    ∧ (∀ n, lookupNonEmptyEnv env "FLOW_COMMAND_SUMMARY" = none →
        lookupNonEmptyEnv env "FLOW_COMMAND_NAME" = some n →
        (app = none ∨ ∃ a, app = some a
            ∧ truthy (a.name.map (fun s => jsTrim s.data)) = none
            ∧ truthy (a.description.map (fun s => jsTrim s.data)) = none) →
        (resolveIdentity env argv1 app).commandSummary
          = deriveBase n ++ summarySuffix) := by
  refine ⟨fun n hname => ?_, fun a s hname happ haname hs => ?_,
    fun hname happN hcand => ?_, fun s hsum => ?_,
    fun a n hsum happ htrn htrd => ?_, fun a d hsum happ htrd => ?_,
    fun hsum hname happN hcand => ?_, fun n hsum hname happN => ?_⟩
  · obtain ⟨hn1, hn2⟩ := lookupNonEmptyEnv_props hname
    simp only [resolveIdentity, configureCommandIdentity_env_name argv1 hname]
    cases app with
    | none =>
      rw [applyAppMetadata_none, applyCommandIdentity_apply _ _ hn1 hn2]
    | some a =>
      rw [applyAppMetadata_some, applyAppMetadataVersion_commandName,
        applyAppMetadataSummary_commandName,
        applyAppMetadataName_locked _ _ _ rfl,
        applyCommandIdentity_apply _ _ hn1 hn2]
  · subst happ
    have htr : truthy ((some s).map (fun s => jsTrim s.data))
        = some (jsTrim s.data) := by simp [truthy, hs]
    simp only [resolveIdentity, configureCommandIdentity_no_env_name argv1 hname]
    rw [applyAppMetadata_some, applyAppMetadataVersion_commandName,
      applyAppMetadataSummary_commandName, haname, htr,
      applyAppMetadataName_apply _ _ _ rfl,
      applyCommandIdentity_apply _ _ hs (jsTrim_jsTrim_ne_nil hs)]
  · have hc1 : argv1.getD ("fast".toList) ≠ [] := by
      intro h
      rw [h] at hcand
      exact hcand rfl
    simp only [resolveIdentity, configureCommandIdentity_no_env_name argv1 hname]
    rcases happN with rfl | ⟨a, rfl, htr⟩
    · rw [applyAppMetadata_none, applyCommandIdentity_apply _ _ hc1 hcand]
    · rw [applyAppMetadata_some, applyAppMetadataVersion_commandName,
        applyAppMetadataSummary_commandName, htr]
      show (applyCommandIdentity _ _ _).commandName = _
      rw [applyCommandIdentity_apply _ _ hc1 hcand]
  · have hls : (lookupNonEmptyEnv env "FLOW_COMMAND_SUMMARY").isSome = true := by
      rw [hsum]; rfl
    have hbase : (configBaseState env).commandSummary = s := by
      simp [configBaseState, hsum]
    cases hname : lookupNonEmptyEnv env "FLOW_COMMAND_NAME" with
    | some n =>
      simp only [resolveIdentity, configureCommandIdentity_env_name argv1 hname, hls]
      cases app with
      | none =>
        rw [applyAppMetadata_none, applyCommandIdentity_summary_locked]
        exact hbase
      | some a =>
        rw [applyAppMetadata_some, applyAppMetadataVersion_commandSummary,
          applyAppMetadataSummary_locked _ _ _ rfl,
          applyAppMetadataName_summary_locked _ _ _ rfl,
          applyCommandIdentity_summary_locked]
        exact hbase
    | none =>
      simp only [resolveIdentity, configureCommandIdentity_no_env_name argv1 hname,
        hls]
      cases app with
      | none =>
        rw [applyAppMetadata_none, applyCommandIdentity_summary_locked]
        exact hbase
      | some a =>
        rw [applyAppMetadata_some, applyAppMetadataVersion_commandSummary,
          applyAppMetadataSummary_locked _ _ _ rfl,
          applyAppMetadataName_summary_locked _ _ _ rfl,
          applyCommandIdentity_summary_locked]
        exact hbase
  · subst happ
    have hls : (lookupNonEmptyEnv env "FLOW_COMMAND_SUMMARY").isSome = false := by
      rw [hsum]; rfl
    cases hname : lookupNonEmptyEnv env "FLOW_COMMAND_NAME" with
    | some m =>
      simp only [resolveIdentity, configureCommandIdentity_env_name argv1 hname, hls]
      rw [applyAppMetadata_some, applyAppMetadataVersion_commandSummary, htrn, htrd,
        applyAppMetadataSummary_name _ _ rfl]
    | none =>
      simp only [resolveIdentity, configureCommandIdentity_no_env_name argv1 hname,
        hls]
      rw [applyAppMetadata_some, applyAppMetadataVersion_commandSummary, htrn, htrd,
        applyAppMetadataSummary_name _ _ rfl]
  · subst happ
    have hls : (lookupNonEmptyEnv env "FLOW_COMMAND_SUMMARY").isSome = false := by
      rw [hsum]; rfl
    cases hname : lookupNonEmptyEnv env "FLOW_COMMAND_NAME" with
    | some m =>
      simp only [resolveIdentity, configureCommandIdentity_env_name argv1 hname, hls]
      rw [applyAppMetadata_some, applyAppMetadataVersion_commandSummary, htrd,
        applyAppMetadataSummary_desc _ _ _ rfl]
    | none =>
      simp only [resolveIdentity, configureCommandIdentity_no_env_name argv1 hname,
        hls]
      rw [applyAppMetadata_some, applyAppMetadataVersion_commandSummary, htrd,
        applyAppMetadataSummary_desc _ _ _ rfl]
  · have hls : (lookupNonEmptyEnv env "FLOW_COMMAND_SUMMARY").isSome = false := by
      rw [hsum]; rfl
    have hc1 : argv1.getD ("fast".toList) ≠ [] := by
      intro h
      rw [h] at hcand
      exact hcand rfl
    simp only [resolveIdentity, configureCommandIdentity_no_env_name argv1 hname,
      hls]
    have hsm : (applyCommandIdentity (some (argv1.getD ("fast".toList))) false
        (configBaseState env)).commandSummary
        = deriveBase (argv1.getD ("fast".toList)) ++ summarySuffix := by
      rw [applyCommandIdentity_apply _ _ hc1 hcand]
      rfl
    rcases happN with rfl | ⟨a, rfl, htrn, htrd⟩
    · rw [applyAppMetadata_none]
      exact hsm
    · rw [applyAppMetadata_some, applyAppMetadataVersion_commandSummary, htrn, htrd,
        applyAppMetadataSummary_none _ rfl]
      show (applyCommandIdentity _ _ _).commandSummary = _
      exact hsm
  · obtain ⟨hn1, hn2⟩ := lookupNonEmptyEnv_props hname
    have hls : (lookupNonEmptyEnv env "FLOW_COMMAND_SUMMARY").isSome = false := by
      rw [hsum]; rfl
    simp only [resolveIdentity, configureCommandIdentity_env_name argv1 hname, hls]
    have hsm : (applyCommandIdentity (some n) false
        (configBaseState env)).commandSummary
        = deriveBase n ++ summarySuffix := by
      rw [applyCommandIdentity_apply _ _ hn1 hn2]
      rfl
    rcases happN with rfl | ⟨a, rfl, htrn, htrd⟩
    · rw [applyAppMetadata_none]
      exact hsm
    · rw [applyAppMetadata_some, applyAppMetadataVersion_commandSummary, htrn, htrd,
        applyAppMetadataSummary_none _ rfl]
      show (applyCommandIdentity _ _ _).commandSummary = _
      exact hsm

/-- Witness for the amended C7 at concrete inputs: the environment name wins
over the configuration app name for the command name, and the environment
summary survives every lower-precedence source. -/
theorem c7_identity_precedence_witness :
    (resolveIdentity c7Env (some ("/usr/bin/tool".toList)) (some c7App)).commandName
      = deriveBase ("envcli".toList)
    ∧ ∀ s, lookupNonEmptyEnv c7Env "FLOW_COMMAND_SUMMARY" = some s →
        (resolveIdentity c7Env (some ("/usr/bin/tool".toList))
          (some c7App)).commandSummary = s :=
  ⟨(c7_identity_precedence c7Env (some ("/usr/bin/tool".toList)) (some c7App)).1
      ("envcli".toList) (by decide),
   fun s hs =>
    (c7_identity_precedence c7Env (some ("/usr/bin/tool".toList)) (some c7App)).2.2.2.1
      s hs⟩

end FastCLI
